import Mathlib

/-!
Shallow embedding of `analyze_acoustics.py` from the `rf_parameters` repository,
together with proofs about the measurement pipeline it implements.

Conventions of the embedding:
* Python floats that may be NaN (and pandas nulls) are modelled as `Option ℚ`
  (`none` = NaN / null); exact arithmetic uses `ℚ`.
* Fallible Python code is modelled in `Except PyErr`; an `Except.error` models an
  uncaught Python exception aborting the enclosing loop.
* The external acoustic library (praat / parselmouth) is modelled by oracle
  functions passed as parameters; annotation files (TextGrids) are modelled as
  explicit data.
-/

/-- Python exception classes that the analyzer can raise. -/
inductive PyErr where
  | zeroDivision
  | indexError
  | valueError
  | typeError
  | praatError
  deriving DecidableEq, Repr

/-- Result of indexing a Python list (0-based): `IndexError` when out of range. -/
def pyIdx {α : Type} (l : List α) (i : Nat) : Except PyErr α :=
  match l.get? i with
  | some v => Except.ok v
  | none => Except.error PyErr.indexError

/-- Python float division `a / b` over rationals: raises `ZeroDivisionError` on a zero divisor. -/
def pyDivQ (a b : ℚ) : Except PyErr ℚ :=
  if b = 0 then Except.error PyErr.zeroDivision else Except.ok (a / b)

/-- Python division of a rational by an integer (the dispersion divisor `formant_count - 1`
is a Python int): raises `ZeroDivisionError` on a zero divisor. -/
def pyDivZ (a : ℚ) (b : ℤ) : Except PyErr ℚ :=
  if b = 0 then Except.error PyErr.zeroDivision else Except.ok (a / (b : ℚ))

/-- A Python float that may be NaN: `none` models NaN (and a pandas null). -/
abbrev PyFloat := Option ℚ

/-- NaN-propagating product with a rational constant. -/
def pyMulC (c : ℚ) (x : PyFloat) : PyFloat :=
  x.map (fun q => c * q)

/-- NaN-propagating subtraction of Python floats. -/
def pyFSub (a b : PyFloat) : PyFloat :=
  match a, b with
  | some x, some y => some (x - y)
  | _, _ => none

/-- Python float division with NaN: a zero divisor raises `ZeroDivisionError`, a NaN
divisor or dividend otherwise propagates to a NaN result. -/
def pyFDiv (a b : PyFloat) : Except PyErr PyFloat :=
  match b with
  | some q =>
    if q = 0 then Except.error PyErr.zeroDivision
    else Except.ok (match a with | some p => some (p / q) | none => none)
  | none => Except.ok none

/-- Model of `math.log2`: NaN maps to NaN, a non-positive argument raises `ValueError`
(math domain error); on positive arguments the abstract real function `L` gives the value. -/
def pyLog2 (L : ℚ → ℚ) (x : PyFloat) : Except PyErr PyFloat :=
  match x with
  | none => Except.ok none
  | some q => if q ≤ 0 then Except.error PyErr.valueError else Except.ok (some (L q))

/-- Model of Python `list.index`: 0-based position of the first occurrence,
`ValueError` when the element is absent. -/
def pyListIndex (x : String) : List String → Except PyErr Nat
  | [] => Except.error PyErr.valueError
  | y :: ys => if y = x then Except.ok 0 else (pyListIndex x ys).map (fun n => n + 1)

/-- Handle to an audio signal loaded by the external acoustic library. -/
structure Sound where
  id : Nat
  deriving DecidableEq

/-- Handle to a pitch track computed by the external acoustic library. -/
structure Pitch where
  id : Nat
  deriving DecidableEq

/-- Handle to a Praat PointProcess object. -/
structure PointProcess where
  id : Nat
  deriving DecidableEq

/-- Handle to a Praat Ltas (long-term average spectrum) object. -/
structure Ltas where
  id : Nat
  deriving DecidableEq

/-- One labelled interval of an interval tier. -/
structure TGInterval where
  xmin : ℚ
  xmax : ℚ
  label : String
  deriving DecidableEq

/-- One labelled point of a point tier. -/
structure TGPoint where
  time : ℚ
  mark : String
  deriving DecidableEq

/-- The contents of a tier: either intervals or points. -/
inductive TierData where
  | intervalTier (intervals : List TGInterval)
  | pointTier (points : List TGPoint)
  deriving DecidableEq

/-- A named tier of a TextGrid annotation file. -/
structure Tier where
  name : String
  data : TierData
  deriving DecidableEq

/-- A TextGrid annotation file: an ordered list of named tiers. -/
structure TextGrid where
  tiers : List Tier
  deriving DecidableEq

/-- Praat call `Get number of intervals`: errors on a point tier. -/
def getNumberOfIntervals : TierData → Except PyErr Nat
  | TierData.intervalTier ivs => Except.ok ivs.length
  | TierData.pointTier _ => Except.error PyErr.praatError

/-- Praat call `Get start time of interval` (1-based interval index). -/
def getIntervalStart (d : TierData) (k : Nat) : Except PyErr ℚ :=
  match d with
  | TierData.intervalTier ivs =>
    match ivs.get? (k - 1) with
    | some iv => Except.ok iv.xmin
    | none => Except.error PyErr.praatError
  | TierData.pointTier _ => Except.error PyErr.praatError

/-- Praat call `Get end time of interval` (1-based interval index). -/
def getIntervalEnd (d : TierData) (k : Nat) : Except PyErr ℚ :=
  match d with
  | TierData.intervalTier ivs =>
    match ivs.get? (k - 1) with
    | some iv => Except.ok iv.xmax
    | none => Except.error PyErr.praatError
  | TierData.pointTier _ => Except.error PyErr.praatError

/-- Praat call `Get number of points`: errors on an interval tier. -/
def getNumberOfPoints : TierData → Except PyErr Nat
  | TierData.intervalTier _ => Except.error PyErr.praatError
  | TierData.pointTier pts => Except.ok pts.length

/-- Praat call `Get label of point` (1-based point index). -/
def getPointLabel (d : TierData) (k : Nat) : Except PyErr String :=
  match d with
  | TierData.pointTier pts =>
    match pts.get? (k - 1) with
    | some p => Except.ok p.mark
    | none => Except.error PyErr.praatError
  | TierData.intervalTier _ => Except.error PyErr.praatError

/-- Praat call `Get time of point` (1-based point index). -/
def getPointTime (d : TierData) (k : Nat) : Except PyErr ℚ :=
  match d with
  | TierData.pointTier pts =>
    match pts.get? (k - 1) with
    | some p => Except.ok p.time
    | none => Except.error PyErr.praatError
  | TierData.intervalTier _ => Except.error PyErr.praatError

/-- The three per-row outputs of the vowel-duration stage (`none` models pandas NaN). -/
structure VowelVals where
  v1_start : Option ℚ
  v1_end : Option ℚ
  v1_duration : Option ℚ
  deriving DecidableEq

/-- The warning text emitted by `get_vowel_duration` for a malformed Vowel tier. -/
def vowelWarnMissing (speaker utt : String) : String :=
  speaker ++ "-" ++ utt ++ " is missing a V1 annotation or the V1 annotation could not be automatically determined."

/-- The warning text emitted by `get_vowel_duration` when no Vowel tier exists. -/
def vowelWarnNoTier (speaker utt : String) : String :=
  speaker ++ "-" ++ utt ++ " does not contain Vowel tier."

/-- One iteration of the tier loop in `get_vowel_duration`: a tier named `Vowel`
overwrites the row's outputs (interval-2 values when the tier has exactly 3 intervals,
nulls plus a warning otherwise); any other tier is skipped.  State: current values,
`found_vowel_tier` flag, warnings so far. -/
def vowelTierStep (speaker utt : String) (st : VowelVals × Bool × List String) (t : Tier) :
    Except PyErr (VowelVals × Bool × List String) :=
  if t.name = "Vowel" then do
    let n ← getNumberOfIntervals t.data
    if n = 3 then do
      let s ← getIntervalStart t.data 2
      let e ← getIntervalEnd t.data 2
      pure (⟨some s, some e, some ((e - s) * 1000)⟩, true, st.2.2)
    else
      pure (⟨none, none, none⟩, true, st.2.2 ++ [vowelWarnMissing speaker utt])
  else pure st

/-- Per-row body of `get_vowel_duration`: iterate over all tiers of the TextGrid, then
warn when no Vowel tier was found.  Returns the values finally stored for the row
together with the warnings emitted while processing it. -/
def get_vowel_duration_row (speaker utt : String) (tg : TextGrid) :
    Except PyErr (VowelVals × List String) := do
  let res ← tg.tiers.foldlM (vowelTierStep speaker utt) (⟨none, none, none⟩, false, [])
  if res.2.1 then pure (res.1, res.2.2)
  else pure (res.1, res.2.2 ++ [vowelWarnNoTier speaker utt])

/-- One utterance row as assembled by `collect_from_directory`. -/
structure URow where
  speaker : String
  utterance : String
  grid : TextGrid

/-- The vowel-duration stage: processes every row in order; an uncaught Praat error in
one row aborts the whole stage, a warning does not. -/
def get_vowel_duration (rows : List URow) : Except PyErr (List (VowelVals × List String)) :=
  rows.mapM (fun r => get_vowel_duration_row r.speaker r.utterance r.grid)

/-- The three per-row outputs of the word-duration stage. -/
structure WordVals where
  tool_duration : Option ℚ
  target_duration : Option ℚ
  ratio_word_duration : Option ℚ
  deriving DecidableEq

/-- The warning text emitted by `get_word_durations` for a malformed Word tier. -/
def wordWarnMissing (speaker utt : String) : String :=
  speaker ++ "-" ++ utt ++ " is missing word annotations or the word annotations could not be automatically determined."

/-- The warning text emitted by `get_word_durations` when no Word tier exists. -/
def wordWarnNoTier (speaker utt : String) : String :=
  speaker ++ "-" ++ utt ++ " does not contain Word tier."

/-- One iteration of the tier loop in `get_word_durations`: a tier named `Word` with
exactly 5 intervals overwrites the outputs (tool = interval 2, target = interval 4,
ratio = tool/target); a `Word` tier with any other interval count only warns and leaves
the current values in place. -/
def wordTierStep (speaker utt : String) (st : WordVals × Bool × List String) (t : Tier) :
    Except PyErr (WordVals × Bool × List String) :=
  if t.name = "Word" then do
    let n ← getNumberOfIntervals t.data
    if n = 5 then do
      let ts ← getIntervalStart t.data 2
      let te ← getIntervalEnd t.data 2
      let tool := (te - ts) * 1000
      let gs ← getIntervalStart t.data 4
      let ge ← getIntervalEnd t.data 4
      let targ := (ge - gs) * 1000
      let ratio ← pyDivQ tool targ
      pure (⟨some tool, some targ, some ratio⟩, true, st.2.2)
    else
      pure (st.1, true, st.2.2 ++ [wordWarnMissing speaker utt])
  else pure st

/-- Per-row body of `get_word_durations`. -/
def get_word_durations_row (speaker utt : String) (tg : TextGrid) :
    Except PyErr (WordVals × List String) := do
  let res ← tg.tiers.foldlM (wordTierStep speaker utt) (⟨none, none, none⟩, false, [])
  if res.2.1 then pure (res.1, res.2.2)
  else pure (res.1, res.2.2 ++ [wordWarnNoTier speaker utt])

/-- The stage-enabling booleans of the `options` object in `config.json`. -/
structure Options where
  vowelDuration : Bool
  formantAverages : Bool
  formantDispersions : Bool
  rms : Bool
  spectralTilt : Bool
  centerOfGravity : Bool
  wordDuration : Bool
  relativeHeights : Bool
  h1h2 : Bool
  deriving DecidableEq

/-- The stages whose per-row loops the constructor can invoke. -/
inductive StageEvent where
  | vowelDuration
  | formants
  | formantDispersions
  | rms
  | spectralTilt
  | centerOfGravity
  | wordDurations
  | relativeHeights
  | h1h2
  deriving DecidableEq, Repr

/-- Model of `any(self.method_calls)`: at least one option is enabled. -/
def anyEnabled (o : Options) : Bool :=
  o.vowelDuration || o.formantAverages || o.formantDispersions || o.rms ||
    o.spectralTilt || o.centerOfGravity || o.wordDuration || o.relativeHeights || o.h1h2

/-- The constructor's stage orchestration (`Analyzer.__init__`): stages run in a fixed
order; the dependent-option checks for formant dispersions, RMS, spectral tilt and
center of gravity sit immediately before their own stage, so they raise only after all
earlier enabled stages have already run their per-row loops; the word-duration block
has no dependency check at all.  Returns the trace of stage loops invoked before
control stopped, and the error message raised, if any. -/
def runStages (o : Options) : List StageEvent × Option String :=
  if anyEnabled o then
    let tr0 : List StageEvent := []
    let tr1 := if o.vowelDuration then tr0 ++ [StageEvent.vowelDuration] else tr0
    let tr2 := if o.formantAverages then tr1 ++ [StageEvent.formants] else tr1
    if o.formantDispersions && !o.formantAverages then
      (tr2, some "Formant dispersion measurement requires formants to be calculated as well.")
    else
      let tr3 := if o.formantDispersions then tr2 ++ [StageEvent.formantDispersions] else tr2
      if o.rms && !o.vowelDuration then
        (tr3, some "RMS calculation requires vowel durations to be calculated as well.")
      else
        let tr4 := if o.rms then tr3 ++ [StageEvent.rms] else tr3
        if o.spectralTilt && !o.vowelDuration then
          (tr4, some "Spectral tilt calculation requires vowel durations to be calculated as well.")
        else
          let tr5 := if o.spectralTilt then tr4 ++ [StageEvent.spectralTilt] else tr4
          if o.centerOfGravity && !o.vowelDuration then
            (tr5, some "Spectral center of gravity calculation requires vowel durations to be calculated as well.")
          else
            let tr6 := if o.centerOfGravity then tr5 ++ [StageEvent.centerOfGravity] else tr5
            let tr7 := if o.wordDuration then tr6 ++ [StageEvent.wordDurations] else tr6
            let tr8 := if o.relativeHeights then tr7 ++ [StageEvent.relativeHeights] else tr7
            let tr9 := if o.h1h2 then tr8 ++ [StageEvent.h1h2] else tr8
            (tr9, none)
  else ([], none)

/-- A Praat Formant object: the deterministic result of `to_formant_burg` on a sound
with a maximum-formant ceiling. -/
structure FormantObj where
  sound : Sound
  maxFormant : ℚ
  deriving DecidableEq

/-- Per-row input of `get_formants`. -/
structure FormantRow where
  speaker : String
  utterance : String
  sex : Option String
  sound_obj : Option Sound
  v1_start : Option ℚ
  v1_end : Option ℚ

/-- The formant outputs written for one row. -/
structure FormantRes where
  f1 : Option ℚ
  f2 : Option ℚ
  f3 : Option ℚ
  deriving DecidableEq

/-- The warning text emitted by `get_formants` when a row is skipped. -/
def formantSkipWarn (speaker utt : String) : String :=
  "Skipping formant measurement for " ++ speaker ++ "-" ++ utt ++ ": missing V1 segment sound data."

/-- Per-row body of `get_formants`.  `getMean fo k a b` models the praat call
`Get mean, k, a, b, Hertz` on the formant object `fo`; `hasSexCol` models
`"sex" in self.data.columns`.  When the sex column exists but the row's value is
neither `m` nor `f`, `formant_obj` stays `None` and the praat call on it raises a
`TypeError`. -/
def get_formants_row (getMean : FormantObj → Nat → Option ℚ → Option ℚ → Option ℚ)
    (hasSexCol : Bool) (r : FormantRow) : Except PyErr (FormantRes × List String) :=
  match r.sound_obj, r.v1_start with
  | some snd, some _ =>
    let fo : Option FormantObj :=
      if hasSexCol then
        if r.sex = some "m" then some ⟨snd, 4500⟩
        else if r.sex = some "f" then some ⟨snd, 5500⟩
        else none
      else some ⟨snd, 5500⟩
    match fo with
    | none => Except.error PyErr.typeError
    | some obj =>
      Except.ok (⟨getMean obj 1 r.v1_start r.v1_end, getMean obj 2 r.v1_start r.v1_end,
        getMean obj 3 r.v1_start r.v1_end⟩, [])
  | _, _ => Except.ok (⟨none, none, none⟩, [formantSkipWarn r.speaker r.utterance])

/-- Row view used by the dispersion stage: speaker, formant columns, output columns. -/
structure FRow where
  speaker : String
  f1 : Option ℚ
  f2 : Option ℚ
  f3 : Option ℚ
  f1_f2_dispersion : Option ℚ
  f2_f3_dispersion : Option ℚ
  deriving DecidableEq

/-- Warning of `get_formant_dispersions` on unequal per-column counts. -/
def dispersionWarnUnequal : String :=
  "There are more formants of one kind than of another."

/-- Warning of `get_formant_dispersions` when some utterance lacks formant values. -/
def dispersionWarnMissing : String :=
  "One or more utterances do not have any corresponding formant values."

/-- The Python list comprehension of pairwise differences of two lists at indices
0..n-1: `IndexError` when the index runs past either list. -/
def pairDiffs : List ℚ → List ℚ → Nat → Except PyErr (List ℚ)
  | _, _, 0 => Except.ok []
  | y :: ys, x :: xs, Nat.succ n => (pairDiffs ys xs n).map (fun rest => (y - x) :: rest)
  | _, _, Nat.succ _ => Except.error PyErr.indexError

/-- Per-speaker body of `get_formant_dispersions`: drop nulls per formant column, warn
on unequal counts, warn when the maximal count differs from the utterance count, index
the per-column lists up to the maximal count, and divide each summed difference by
`formant_count - 1`. -/
def dispSpeaker (utts : List (Option ℚ × Option ℚ × Option ℚ)) :
    Except PyErr (ℚ × ℚ × List String) := do
  let f1s := utts.filterMap (fun u => u.1)
  let f2s := utts.filterMap (fun u => u.2.1)
  let f3s := utts.filterMap (fun u => u.2.2)
  let w1 : List String :=
    if f1s.length = f2s.length ∧ f2s.length = f3s.length then [] else [dispersionWarnUnequal]
  let fc := max f1s.length (max f2s.length f3s.length)
  let w2 : List String := if fc = utts.length then [] else [dispersionWarnMissing]
  let d12terms ← pairDiffs f2s f1s fc
  let d12 ← pyDivZ d12terms.sum ((fc : ℤ) - 1)
  let d23terms ← pairDiffs f3s f2s fc
  let d23 ← pyDivZ d23terms.sum ((fc : ℤ) - 1)
  pure (d12, d23, w1 ++ w2)

/-- Model of `pandas.unique`: distinct values in order of first occurrence. -/
def uniqueFirst (l : List String) : List String :=
  l.foldl (fun acc s => if s ∈ acc then acc else acc ++ [s]) []

/-- Broadcast one speaker's dispersion values onto all of that speaker's rows. -/
def broadcastSpeaker (rows : List FRow) (s : String) (d12 d23 : ℚ) : List FRow :=
  rows.map (fun r =>
    if r.speaker = s then { r with f1_f2_dispersion := some d12, f2_f3_dispersion := some d23 }
    else r)

/-- One speaker iteration of `get_formant_dispersions`. -/
def dispStep (acc : List FRow × List String) (s : String) :
    Except PyErr (List FRow × List String) := do
  let utts := (acc.1.filter (fun r => r.speaker = s)).map (fun r => (r.f1, r.f2, r.f3))
  let res ← dispSpeaker utts
  pure (broadcastSpeaker acc.1 s res.1 res.2.1, acc.2 ++ res.2.2)

/-- The formant-dispersion stage: iterate over the unique speakers, computing and
broadcasting each speaker's two dispersion values.  An uncaught error for one speaker
aborts the whole stage. -/
def get_formant_dispersions (rows : List FRow) : Except PyErr (List FRow × List String) :=
  (uniqueFirst (rows.map (fun r => r.speaker))).foldlM dispStep (rows, [])

/-- A row's formant triple when all three values are non-null. -/
def tripleOf (u : Option ℚ × Option ℚ × Option ℚ) : Option (ℚ × ℚ × ℚ) :=
  match u with
  | (some a, some b, some c) => some (a, b, c)
  | _ => none

/-- The non-null formant triples of one speaker's rows, paired row-wise. -/
def fullTriples (rows : List FRow) (s : String) : List (ℚ × ℚ × ℚ) :=
  (rows.filter (fun r => r.speaker = s)).filterMap (fun r => tripleOf (r.f1, r.f2, r.f3))

/-- The f1-f2 dispersion as the claim states it: mean pairwise difference over paired
non-null triples with divisor `n - 1`. -/
def specD12 (rows : List FRow) (s : String) : ℚ :=
  ((fullTriples rows s).map (fun t => t.2.1 - t.1)).sum /
    (((fullTriples rows s).length : ℚ) - 1)

/-- The f2-f3 dispersion as the claim states it. -/
def specD23 (rows : List FRow) (s : String) : ℚ :=
  ((fullTriples rows s).map (fun t => t.2.2 - t.2.1)).sum /
    (((fullTriples rows s).length : ℚ) - 1)

/-- Per-row input of `get_rms`. -/
structure RmsRow where
  speaker : String
  utterance : String
  sound_obj : Option Sound
  v1_start : Option ℚ
  v1_end : Option ℚ

/-- The warning text of `get_rms` (reached only when the sound object is missing). -/
def rmsWarn (speaker utt : String) : String :=
  speaker ++ "-" ++ utt ++ " does not contain Vowel tier. NA value inserted."

/-- Per-row body of `get_rms`.  `rmsOf snd a b` models
`snd.get_root_mean_square(from_time=a, to_time=b)` (NaN bounds included).  The guard
tests only whether `sound_obj` is a Sound; the vowel span is not checked, so a row
with a valid sound and a null span still calls the library and stores its result,
with no warning. -/
def get_rms_row (rmsOf : Sound → Option ℚ → Option ℚ → Option ℚ) (r : RmsRow) :
    Option ℚ × List String :=
  match r.sound_obj with
  | some snd => (rmsOf snd r.v1_start r.v1_end, [])
  | none => (none, [rmsWarn r.speaker r.utterance])

/-- The RMS stage over all rows. -/
def get_rms (rmsOf : Sound → Option ℚ → Option ℚ → Option ℚ) (rows : List RmsRow) :
    List (Option ℚ × List String) :=
  rows.map (get_rms_row rmsOf)

/-- The values stored by the relative-heights stage for one row. -/
structure RelVals where
  exc_target_low_end : Option ℚ
  exc_peak_low_end : Option ℚ
  pitch_obj : Option Pitch
  deriving DecidableEq

/-- The warning text emitted by `get_relative_heights` when no `f0` tier exists. -/
def relWarnNoTier (speaker utt : String) : String :=
  speaker ++ "-" ++ utt ++ " does not contain tone tier."

/-- One iteration of the tier loop in `get_relative_heights` with oracle pitch
functions, mirroring the source: on a 3-point `f0` tier the pitch track is computed,
the three labels, timestamps and pitch values are read, the target and peak excursions
are derived (a missing `H` label raises `ValueError` at `labels.index`); any other
point count is passed over silently, with no write and no warning. -/
def relTierStep (toPitch : Sound → ℚ → ℚ → Pitch) (pitchAt : Pitch → ℚ → PyFloat)
    (L : ℚ → ℚ) (snd : Sound) (st : RelVals × Bool) (t : Tier) :
    Except PyErr (RelVals × Bool) :=
  if t.name = "f0" then do
    let n ← getNumberOfPoints t.data
    if n = 3 then do
      let pitch := toPitch snd 50 500
      let labels ← (List.range n).mapM (fun k => getPointLabel t.data (k + 1))
      let timestamps ← (List.range n).mapM (fun k => getPointTime t.data (k + 1))
      let f0s := timestamps.map (fun ts => pitchAt pitch ts)
      let f01 ← pyIdx f0s 1
      let f02 ← pyIdx f0s 2
      let q1 ← pyFDiv f01 f02
      let lg1 ← pyLog2 L q1
      let targ := pyMulC 12 lg1
      let peak ← pyListIndex "H" labels
      let f0p ← pyIdx f0s peak
      let q2 ← pyFDiv f0p f02
      let lg2 ← pyLog2 L q2
      let peakv := pyMulC 12 lg2
      pure (⟨targ, peakv, some pitch⟩, true)
    else
      pure (st.1, true)
  else pure st

/-- Per-row body of `get_relative_heights`. -/
def get_relative_heights_row (toPitch : Sound → ℚ → ℚ → Pitch)
    (pitchAt : Pitch → ℚ → PyFloat) (L : ℚ → ℚ) (speaker utt : String) (tg : TextGrid)
    (snd : Sound) : Except PyErr (RelVals × List String) := do
  let res ← tg.tiers.foldlM (relTierStep toPitch pitchAt L snd) (⟨none, none, none⟩, false)
  if res.2 then pure (res.1, [])
  else pure (res.1, [relWarnNoTier speaker utt])

/-- Per-row input of `get_h1_h2`. -/
structure H1Row where
  speaker : String
  utterance : String
  pitch_obj : Option Pitch
  sound_obj : Sound
  v1_start : Option ℚ
  v1_end : Option ℚ

/-- The try-block of `get_h1_h2`: extract the V1 segment, track pitch with the
adaptive floor/ceiling, build the point process and the harmonics-only Ltas, and read
bins 2 and 3.  Each oracle may fail; `Except Unit` models an arbitrary caught
exception. -/
def h1h2attempt (extractPart : Sound → Option ℚ → Option ℚ → Except Unit Sound)
    (toPitchCC : Sound → PyFloat → PyFloat → Except Unit Pitch)
    (toPointProcess : Pitch → Except Unit PointProcess)
    (toLtas : Sound → PointProcess → ℚ → ℚ → ℚ → ℚ → Except Unit Ltas)
    (getBin : Ltas → Nat → Except Unit PyFloat)
    (snd : Sound) (v1s v1e : Option ℚ) (q25 q75 : PyFloat) : Except Unit PyFloat := do
  let v1 ← extractPart snd v1s v1e
  let p2 ← toPitchCC v1 q25 q75
  let pp ← toPointProcess p2
  let lt ← toLtas v1 pp 20 (1 / 10000) (1 / 50) (13 / 10)
  let h1 ← getBin lt 2
  let h2 ← getBin lt 3
  pure (pyFSub h1 h2)

/-- The pitch track used by `get_h1_h2` for a row: the stored `pitch_obj` when the
column holds one, otherwise a freshly computed track with floor 50 and ceiling 500. -/
def rowPitch (toPitch : Sound → ℚ → ℚ → Pitch) (r : H1Row) : Pitch :=
  match r.pitch_obj with
  | some p => p
  | none => toPitch r.sound_obj 50 500

/-- Per-row body of `get_h1_h2`: reuse the row's pitch object when present, otherwise
recompute it; a null V1 span stores NaN; otherwise the quantile-derived floor and
ceiling are computed and the harmonic-spectrum attempt runs inside try/except, a
failure leaving the row without a value and without a warning. -/
def get_h1_h2_row (toPitch : Sound → ℚ → ℚ → Pitch)
    (getQuantile : Pitch → Option ℚ → Option ℚ → ℚ → PyFloat)
    (extractPart : Sound → Option ℚ → Option ℚ → Except Unit Sound)
    (toPitchCC : Sound → PyFloat → PyFloat → Except Unit Pitch)
    (toPointProcess : Pitch → Except Unit PointProcess)
    (toLtas : Sound → PointProcess → ℚ → ℚ → ℚ → ℚ → Except Unit Ltas)
    (getBin : Ltas → Nat → Except Unit PyFloat)
    (r : H1Row) : Option ℚ × List String :=
  let pitch := rowPitch toPitch r
  match r.v1_start with
  | some vs =>
    let q25 := pyMulC (3 / 4) (getQuantile pitch (some vs) r.v1_end (1 / 4))
    let q75 := pyMulC (5 / 2) (getQuantile pitch (some vs) r.v1_end (3 / 4))
    match h1h2attempt extractPart toPitchCC toPointProcess toLtas getBin
        r.sound_obj (some vs) r.v1_end q25 q75 with
    | Except.ok v => (v, [])
    | Except.error _ => (none, [])
  | none => (none, [])

/-- The H1-H2 stage over all rows: no per-row failure can abort it and it emits no
warnings. -/
def get_h1_h2 (toPitch : Sound → ℚ → ℚ → Pitch)
    (getQuantile : Pitch → Option ℚ → Option ℚ → ℚ → PyFloat)
    (extractPart : Sound → Option ℚ → Option ℚ → Except Unit Sound)
    (toPitchCC : Sound → PyFloat → PyFloat → Except Unit Pitch)
    (toPointProcess : Pitch → Except Unit PointProcess)
    (toLtas : Sound → PointProcess → ℚ → ℚ → ℚ → ℚ → Except Unit Ltas)
    (getBin : Ltas → Nat → Except Unit PyFloat)
    (rows : List H1Row) : List (Option ℚ × List String) :=
  rows.map (get_h1_h2_row toPitch getQuantile extractPart toPitchCC toPointProcess
    toLtas getBin)

/-- The maximum-formant ceiling `get_formants` passes to `to_formant_burg` for a row it
processes (defined only where the stage does not crash: column absent, or sex `m`/`f`). -/
def sexCeiling (hasSexCol : Bool) (sex : Option String) : ℚ :=
  if hasSexCol ∧ sex = some "m" then 4500 else 5500

/-- The fields of a dispersion-stage row that the stage reads but never writes. -/
def frowCore (r : FRow) : String × Option ℚ × Option ℚ × Option ℚ :=
  (r.speaker, r.f1, r.f2, r.f3)

/-- Overwrite a row's dispersion outputs with the claimed per-speaker values, for rows
whose speaker occurs in `ss`. -/
def updSpec (rows : List FRow) (ss : List String) (r : FRow) : FRow :=
  if r.speaker ∈ ss then
    { r with f1_f2_dispersion := some (specD12 rows r.speaker),
             f2_f3_dispersion := some (specD23 rows r.speaker) }
  else r

/-- The vowel-duration values a single Vowel tier determines: the interval-2 values on
an exact 3-interval tier, nulls otherwise. -/
def vowelValsOf (ivs : List TGInterval) : VowelVals :=
  match ivs.get? 1 with
  | some iv =>
    if ivs.length = 3 then ⟨some iv.xmin, some iv.xmax, some ((iv.xmax - iv.xmin) * 1000)⟩
    else ⟨none, none, none⟩
  | none => ⟨none, none, none⟩

/-- A tier that `get_vowel_duration`'s loop can process without an uncaught Praat
error: any tier not named `Vowel`, or a `Vowel` interval tier. -/
def vowelTierSafe (t : Tier) : Bool :=
  if t.name = "Vowel" then
    match t.data with
    | TierData.intervalTier _ => true
    | TierData.pointTier _ => false
  else true

/-- A tier that `get_word_durations`'s loop can process without an uncaught error: any
tier not named `Word`, or a `Word` interval tier whose interval count differs from 5 or
whose interval-4 duration is nonzero (a zero target duration raises
`ZeroDivisionError`). -/
def wordTierSafe (t : Tier) : Bool :=
  if t.name = "Word" then
    match t.data with
    | TierData.intervalTier ivs =>
      if ivs.length = 5 then
        match ivs.get? 3 with
        | some iv => decide ((iv.xmax - iv.xmin) * 1000 ≠ 0)
        | none => false
      else true
    | TierData.pointTier _ => false
  else true

/-- A Word tier with the expected 5 intervals (tool = interval 2, target = interval 4)
used in concrete counterexamples. -/
def tierWord5 : Tier :=
  ⟨"Word", TierData.intervalTier
    [⟨0, 1, ""⟩, ⟨1, 2, "tool"⟩, ⟨2, 3, ""⟩, ⟨3, 5, "target"⟩, ⟨5, 6, ""⟩]⟩

/-- A malformed Word tier with only 4 intervals, used in concrete counterexamples. -/
def tierWord4 : Tier :=
  ⟨"Word", TierData.intervalTier [⟨0, 1, ""⟩, ⟨1, 2, ""⟩, ⟨2, 3, ""⟩, ⟨3, 4, ""⟩]⟩

@[simp] theorem exbind_ok {e a b : Type} (x : a) (f : a → Except e b) :
    (Except.ok x >>= f : Except e b) = f x := rfl

@[simp] theorem exbind_err {e a b : Type} (err : e) (f : a → Except e b) :
    ((Except.error err : Except e a) >>= f) = (Except.error err : Except e b) := rfl

@[simp] theorem expure_eq_ok {e a : Type} (x : a) : (pure x : Except e a) = Except.ok x := rfl

@[simp] theorem exmap_ok {e a b : Type} (f : a → b) (x : a) :
    (Except.ok x : Except e a).map f = Except.ok (f x) := rfl

@[simp] theorem exmap_err {e a b : Type} (f : a → b) (err : e) :
    (Except.error err : Except e a).map f = (Except.error err : Except e b) := rfl

/-- C3: the claim says a row with an absent vowel span gets a null `v1_rms` plus a
warning.  The code's guard tests only the sound object, so a row with a valid sound
and a null span calls `get_root_mean_square` with the null bounds, stores whatever the
library returns (`some 1` for this oracle), and emits no warning. -/
theorem c3_rms_span_absent_no_warning :
    get_rms_row (fun _ _ _ => some 1) ⟨"AH_95", "0032", some ⟨0⟩, none, none⟩ = (some 1, []) :=
  rfl

/-- C9: in the H1-H2 stage, a row with an absent V1 span stores a null `h1_h2`; and
when the harmonic-spectrum attempt (segment extraction, adaptive pitch tracking, point
process, Ltas, bin reads) fails, the failure is caught locally, the row is left without
a value, and in every case the stage emits no warning for the row. -/
theorem c9_h1h2_error_policy (toPitch : Sound → ℚ → ℚ → Pitch)
    (getQuantile : Pitch → Option ℚ → Option ℚ → ℚ → PyFloat)
    (extractPart : Sound → Option ℚ → Option ℚ → Except Unit Sound)
    (toPitchCC : Sound → PyFloat → PyFloat → Except Unit Pitch)
    (toPointProcess : Pitch → Except Unit PointProcess)
    (toLtas : Sound → PointProcess → ℚ → ℚ → ℚ → ℚ → Except Unit Ltas)
    (getBin : Ltas → Nat → Except Unit PyFloat)
    (r : H1Row) :
    (r.v1_start = none →
      get_h1_h2_row toPitch getQuantile extractPart toPitchCC toPointProcess toLtas getBin r =
        (none, [])) ∧
    (∀ vs, r.v1_start = some vs →
      h1h2attempt extractPart toPitchCC toPointProcess toLtas getBin r.sound_obj (some vs)
          r.v1_end
          (pyMulC (3 / 4) (getQuantile (rowPitch toPitch r) (some vs) r.v1_end (1 / 4)))
          (pyMulC (5 / 2) (getQuantile (rowPitch toPitch r) (some vs) r.v1_end (3 / 4))) =
        Except.error () →
      get_h1_h2_row toPitch getQuantile extractPart toPitchCC toPointProcess toLtas getBin r =
        (none, [])) ∧
    (get_h1_h2_row toPitch getQuantile extractPart toPitchCC toPointProcess toLtas getBin
      r).2 = [] := by
  refine ⟨?_, ?_, ?_⟩
  · intro hv
    simp [get_h1_h2_row, hv]
  · intro vs hv hfail
    simp only [get_h1_h2_row, hv]
    rw [hfail]
  · cases hv : r.v1_start with
    | none => simp [get_h1_h2_row, hv]
    | some vs =>
      simp only [get_h1_h2_row, hv]
      split <;> rfl

/-- Witness for C9: at a concrete row whose segment extraction fails, the failure is
caught and the row is left with no value and no warning. -/
theorem c9_h1h2_error_policy_witness :
    get_h1_h2_row (fun _ _ _ => ⟨0⟩) (fun _ _ _ _ => some 100) (fun _ _ _ => Except.error ())
      (fun _ _ _ => Except.ok ⟨0⟩) (fun _ => Except.ok ⟨0⟩) (fun _ _ _ _ _ _ => Except.ok ⟨0⟩)
      (fun _ _ => Except.ok (some 1))
      ⟨"s", "u", none, ⟨0⟩, some 1, some 2⟩ = (none, []) :=
  (c9_h1h2_error_policy _ _ _ _ _ _ _ _).2.1 1 rfl rfl

/-- C8: for a processed row (valid sound object and non-null `v1_start`) whose sex is
`m`, `f`, or whose table has no sex column, the ceiling handed to `to_formant_burg` is
`sexCeiling`: 4500 Hz for sex `m`, 5500 Hz for sex `f` or no sex column; and the stored
f1, f2, f3 are the praat `Get mean` values (Hertz) of formant numbers 1-3 over the
`(v1_start, v1_end)` span. -/
theorem c8_formant_ceiling (getMean : FormantObj → Nat → Option ℚ → Option ℚ → Option ℚ)
    (hasSexCol : Bool) (r : FormantRow) (snd : Sound)
    (hs : r.sound_obj = some snd) (hv : ∃ vs, r.v1_start = some vs)
    (hsex : hasSexCol = false ∨ r.sex = some "m" ∨ r.sex = some "f") :
    get_formants_row getMean hasSexCol r =
      Except.ok (⟨getMean ⟨snd, sexCeiling hasSexCol r.sex⟩ 1 r.v1_start r.v1_end,
        getMean ⟨snd, sexCeiling hasSexCol r.sex⟩ 2 r.v1_start r.v1_end,
        getMean ⟨snd, sexCeiling hasSexCol r.sex⟩ 3 r.v1_start r.v1_end⟩, []) ∧
    (hasSexCol = true ∧ r.sex = some "m" → sexCeiling hasSexCol r.sex = 4500) ∧
    (hasSexCol = false ∨ r.sex = some "f" → sexCeiling hasSexCol r.sex = 5500) := by
  obtain ⟨vs, hvs⟩ := hv
  refine ⟨?_, ?_, ?_⟩
  · cases hasSexCol with
    | false => simp [get_formants_row, hs, hvs, sexCeiling]
    | true =>
      rcases hsex with h | h | h
      · exact absurd h (by simp)
      · simp [get_formants_row, hs, hvs, sexCeiling, h]
      · simp [get_formants_row, hs, hvs, sexCeiling, h]
  · rintro ⟨hcol, hm⟩
    simp [sexCeiling, hcol, hm]
  · intro h
    rcases h with h | h
    · simp [sexCeiling, h]
    · cases hasSexCol with
      | false => simp [sexCeiling]
      | true => simp [sexCeiling, h]

/-- Witness for C8: a concrete row with sex `m` in a table with a sex column receives
the 4500 Hz ceiling, which the oracle echoes back into f1, f2, f3. -/
theorem c8_formant_ceiling_witness :
    get_formants_row (fun fo _ _ _ => some fo.maxFormant) true
      ⟨"s", "u", some "m", some ⟨0⟩, some 0, some 1⟩ =
      Except.ok (⟨some 4500, some 4500, some 4500⟩, []) := by
  have h := c8_formant_ceiling (fun fo _ _ _ => some fo.maxFormant) true
    ⟨"s", "u", some "m", some ⟨0⟩, some 0, some 1⟩ ⟨0⟩ rfl ⟨0, rfl⟩ (Or.inr (Or.inl rfl))
  rw [h.1]
  simp [sexCeiling]

/-- Over all 512 option combinations: a dependent-option violation for formant
dispersions, RMS, spectral tilt or center of gravity makes the constructor raise, and
the violating stage's per-row loop is never invoked. -/
theorem runStagesDepAux : ∀ a b c d e f g h i : Bool,
    ((c = true ∧ b = false) ∨ ((d = true ∨ e = true ∨ f = true) ∧ a = false)) →
    ((runStages ⟨a, b, c, d, e, f, g, h, i⟩).2.isSome = true ∧
      (c = true ∧ b = false →
        StageEvent.formantDispersions ∉ (runStages ⟨a, b, c, d, e, f, g, h, i⟩).1) ∧
      (d = true ∧ a = false → StageEvent.rms ∉ (runStages ⟨a, b, c, d, e, f, g, h, i⟩).1) ∧
      (e = true ∧ a = false →
        StageEvent.spectralTilt ∉ (runStages ⟨a, b, c, d, e, f, g, h, i⟩).1) ∧
      (f = true ∧ a = false →
        StageEvent.centerOfGravity ∉ (runStages ⟨a, b, c, d, e, f, g, h, i⟩).1)) := by
  intro a b c d e f g h i
  cases a <;> cases b <;> cases c <;> cases d <;> cases e <;> cases f <;> cases g <;>
    cases h <;> cases i <;> decide

/-- C2 counterexample: enabling only word duration — without vowel duration — raises no
configuration error at all (the word-duration block has no dependency check), and
enabling vowel duration plus formant dispersions without formant averages runs the
vowel-duration per-row loop before the dispersion check raises, so the error is not
raised before all per-row processing. -/
theorem c2_counterexample :
    runStages ⟨false, false, false, false, false, false, true, false, false⟩ =
      ([StageEvent.wordDurations], none) ∧
    runStages ⟨true, false, true, false, false, false, false, false, false⟩ =
      ([StageEvent.vowelDuration],
        some "Formant dispersion measurement requires formants to be calculated as well.") := by
  constructor <;> rfl

/-- C2 amended: enabling formant dispersions without formant averages, or RMS, spectral
tilt or center of gravity without vowel duration, raises a fatal configuration error
before the dependent stage's own per-row loop is invoked (stages enabled earlier in the
fixed order have already run); word duration carries no such check. -/
theorem c2_amended (o : Options)
    (h : (o.formantDispersions = true ∧ o.formantAverages = false) ∨
      ((o.rms = true ∨ o.spectralTilt = true ∨ o.centerOfGravity = true) ∧
        o.vowelDuration = false)) :
    (runStages o).2.isSome = true ∧
    (o.formantDispersions = true ∧ o.formantAverages = false →
      StageEvent.formantDispersions ∉ (runStages o).1) ∧
    (o.rms = true ∧ o.vowelDuration = false → StageEvent.rms ∉ (runStages o).1) ∧
    (o.spectralTilt = true ∧ o.vowelDuration = false →
      StageEvent.spectralTilt ∉ (runStages o).1) ∧
    (o.centerOfGravity = true ∧ o.vowelDuration = false →
      StageEvent.centerOfGravity ∉ (runStages o).1) := by
  obtain ⟨a, b, c, d, e, f, g, hh, i⟩ := o
  exact runStagesDepAux a b c d e f g hh i h

/-- Witness for the amended C2: RMS without vowel duration raises an error. -/
theorem c2_amended_witness :
    (runStages ⟨false, false, false, true, false, false, false, false, false⟩).2.isSome = true :=
  (c2_amended ⟨false, false, false, true, false, false, false, false, false⟩
    (Or.inr ⟨Or.inl rfl, rfl⟩)).1

theorem foldlM_append_ex {s a : Type} (f : s → a → Except PyErr s) (l1 l2 : List a)
    (st : s) :
    (l1 ++ l2).foldlM f st = l1.foldlM f st >>= fun st2 => l2.foldlM f st2 := by
  induction l1 generalizing st with
  | nil => simp
  | cons t ts ih => simp [List.foldlM_cons, ih]

theorem vowel_fold_no_match (speaker utt : String) (ts : List Tier)
    (h : ∀ t ∈ ts, ¬ t.name = "Vowel") (st : VowelVals × Bool × List String) :
    ts.foldlM (vowelTierStep speaker utt) st = Except.ok st := by
  induction ts generalizing st with
  | nil => rfl
  | cons t ts ih =>
    have hn : ¬ t.name = "Vowel" := h t (List.mem_cons_self t ts)
    have hstep : vowelTierStep speaker utt st t = Except.ok st := by
      simp [vowelTierStep, hn]
    rw [List.foldlM_cons, hstep, exbind_ok]
    exact ih (fun t2 ht2 => h t2 (List.mem_cons_of_mem t ht2)) st

theorem vowelTierStep_match3 (speaker utt : String) (st : VowelVals × Bool × List String)
    (ivs : List TGInterval) (iv : TGInterval) (hlen : ivs.length = 3)
    (hiv : ivs.get? 1 = some iv) :
    vowelTierStep speaker utt st ⟨"Vowel", TierData.intervalTier ivs⟩ =
      Except.ok (⟨some iv.xmin, some iv.xmax, some ((iv.xmax - iv.xmin) * 1000)⟩, true,
        st.2.2) := by
  obtain ⟨a, b, c, rfl⟩ := List.length_eq_three.mp hlen
  simp only [List.get?] at hiv
  cases hiv
  simp [vowelTierStep, getNumberOfIntervals, getIntervalStart, getIntervalEnd]

theorem vowelTierStep_matchBad (speaker utt : String) (st : VowelVals × Bool × List String)
    (ivs : List TGInterval) (hlen : ¬ ivs.length = 3) :
    vowelTierStep speaker utt st ⟨"Vowel", TierData.intervalTier ivs⟩ =
      Except.ok (⟨none, none, none⟩, true, st.2.2 ++ [vowelWarnMissing speaker utt]) := by
  simp [vowelTierStep, getNumberOfIntervals, hlen]

theorem vowel_fold_nulls (speaker utt : String) (ts : List Tier)
    (hall : ∀ t ∈ ts, t.name = "Vowel" →
      ∃ ivs, t.data = TierData.intervalTier ivs ∧ ¬ ivs.length = 3) :
    ∀ (b : Bool) (ws : List String), ∃ ws2,
      ts.foldlM (vowelTierStep speaker utt) (⟨none, none, none⟩, b, ws) =
        Except.ok (⟨none, none, none⟩, (b || ts.any (fun t => t.name = "Vowel")), ws ++ ws2) ∧
      (ts.any (fun t => t.name = "Vowel") = true → vowelWarnMissing speaker utt ∈ ws2) := by
  induction ts with
  | nil =>
    intro b ws
    exact ⟨[], by simp, by simp⟩
  | cons t ts ih =>
    intro b ws
    by_cases hn : t.name = "Vowel"
    · obtain ⟨ivs, hd, hlen⟩ := hall t (List.mem_cons_self t ts) hn
      have hstep : vowelTierStep speaker utt (⟨none, none, none⟩, b, ws) t =
          Except.ok (⟨none, none, none⟩, true, ws ++ [vowelWarnMissing speaker utt]) := by
        simp [vowelTierStep, hn, hd, getNumberOfIntervals, hlen]
      obtain ⟨ws2, h1, _⟩ := ih (fun t2 ht2 => hall t2 (List.mem_cons_of_mem t ht2)) true
        (ws ++ [vowelWarnMissing speaker utt])
      refine ⟨[vowelWarnMissing speaker utt] ++ ws2, ?_, ?_⟩
      · rw [List.foldlM_cons, hstep, exbind_ok, h1]
        simp [List.any_cons, hn, List.append_assoc]
      · intro _
        exact List.mem_append.mpr (Or.inl (List.mem_singleton.mpr rfl))
    · have hstep : vowelTierStep speaker utt (⟨none, none, none⟩, b, ws) t =
          Except.ok (⟨none, none, none⟩, b, ws) := by
        simp [vowelTierStep, hn]
      obtain ⟨ws2, h1, h2⟩ := ih (fun t2 ht2 => hall t2 (List.mem_cons_of_mem t ht2)) b ws
      refine ⟨ws2, ?_, ?_⟩
      · rw [List.foldlM_cons, hstep, exbind_ok, h1]
        simp [List.any_cons, hn]
      · intro hany
        apply h2
        simpa [List.any_cons, hn] using hany

theorem mapM_ok_length {a b : Type} (f : a → Except PyErr b) (l : List a)
    (h : ∀ x ∈ l, ∃ y, f x = Except.ok y) :
    ∃ ys, l.mapM f = Except.ok ys ∧ ys.length = l.length := by
  induction l with
  | nil => exact ⟨[], rfl, rfl⟩
  | cons x l ih =>
    obtain ⟨y, hy⟩ := h x (List.mem_cons_self x l)
    obtain ⟨ys, hys, hlen⟩ := ih (fun x2 hx2 => h x2 (List.mem_cons_of_mem x hx2))
    refine ⟨y :: ys, ?_, by simp [hlen]⟩
    rw [List.mapM_cons, hy, exbind_ok, hys, exbind_ok]
    rfl

/-- C5: for a row whose TextGrid contains a Vowel tier, every Vowel tier being an
interval tier without exactly 3 intervals, the vowel-duration stage stores null
`v1_start`, `v1_end` and `v1_duration`, records the warning naming the speaker and
utterance, and the stage still processes every row of the batch. -/
theorem c5_vowel_malformed_nulls (speaker utt : String) (tg : TextGrid)
    (hex : ∃ t ∈ tg.tiers, t.name = "Vowel")
    (hall : ∀ t ∈ tg.tiers, t.name = "Vowel" →
      ∃ ivs, t.data = TierData.intervalTier ivs ∧ ¬ ivs.length = 3) :
    (∃ ws, get_vowel_duration_row speaker utt tg = Except.ok (⟨none, none, none⟩, ws) ∧
      vowelWarnMissing speaker utt ∈ ws) ∧
    (∀ pre post : List URow,
      (∀ r ∈ pre, ∃ v, get_vowel_duration_row r.speaker r.utterance r.grid = Except.ok v) →
      (∀ r ∈ post, ∃ v, get_vowel_duration_row r.speaker r.utterance r.grid = Except.ok v) →
      ∃ l, get_vowel_duration (pre ++ ⟨speaker, utt, tg⟩ :: post) = Except.ok l ∧
        l.length = (pre ++ ⟨speaker, utt, tg⟩ :: post).length) := by
  have hany : tg.tiers.any (fun t => t.name = "Vowel") = true := by
    obtain ⟨t, ht, hn⟩ := hex
    exact List.any_eq_true.mpr ⟨t, ht, by simp [hn]⟩
  obtain ⟨ws2, h1, h2⟩ := vowel_fold_nulls speaker utt tg.tiers hall false []
  have hrow : get_vowel_duration_row speaker utt tg = Except.ok (⟨none, none, none⟩, ws2) := by
    unfold get_vowel_duration_row
    rw [h1, exbind_ok]
    simp [hany]
  refine ⟨⟨ws2, hrow, h2 hany⟩, ?_⟩
  intro pre post hpre hpost
  apply mapM_ok_length
  intro r hr
  rcases List.mem_append.mp hr with h | h
  · exact hpre r h
  · rcases List.mem_cons.mp h with h | h
    · exact ⟨_, by rw [h]; exact hrow⟩
    · exact hpost r h

/-- Witness for C5: a TextGrid whose single Vowel tier has 2 intervals yields the null
triple plus the speaker-utterance warning, and a singleton batch completes. -/
theorem c5_vowel_malformed_nulls_witness :
    (∃ ws, get_vowel_duration_row "AH_95" "0032"
        ⟨[⟨"Vowel", TierData.intervalTier [⟨0, 1, ""⟩, ⟨1, 2, ""⟩]⟩]⟩ =
        Except.ok (⟨none, none, none⟩, ws) ∧ vowelWarnMissing "AH_95" "0032" ∈ ws) ∧
    (∃ l, get_vowel_duration [⟨"AH_95", "0032",
        ⟨[⟨"Vowel", TierData.intervalTier [⟨0, 1, ""⟩, ⟨1, 2, ""⟩]⟩]⟩⟩] = Except.ok l ∧
      l.length = 1) := by
  have h := c5_vowel_malformed_nulls "AH_95" "0032"
    ⟨[⟨"Vowel", TierData.intervalTier [⟨0, 1, ""⟩, ⟨1, 2, ""⟩]⟩]⟩
    ⟨⟨"Vowel", TierData.intervalTier [⟨0, 1, ""⟩, ⟨1, 2, ""⟩]⟩, by simp, rfl⟩
    (by
      intro t ht hn
      simp at ht
      subst ht
      exact ⟨[⟨0, 1, ""⟩, ⟨1, 2, ""⟩], rfl, by simp⟩)
  refine ⟨h.1, ?_⟩
  have h2 := h.2 [] [] (by simp) (by simp)
  simpa using h2

/-- C6: for a row whose Vowel tier (the only tier with that name) has exactly 3
intervals, the stage stores interval 2's start and end and
`v1_duration = (v1_end - v1_start) * 1000`; on a well-formed interval
(`xmin ≤ xmax`, the TextGrid invariant) the duration is nonnegative. -/
theorem c6_vowel_duration_formula (speaker utt : String) (pre post : List Tier)
    (ivs : List TGInterval) (iv : TGInterval)
    (hpre : ∀ t ∈ pre, ¬ t.name = "Vowel") (hpost : ∀ t ∈ post, ¬ t.name = "Vowel")
    (hlen : ivs.length = 3) (hiv : ivs.get? 1 = some iv) :
    get_vowel_duration_row speaker utt ⟨pre ++ ⟨"Vowel", TierData.intervalTier ivs⟩ :: post⟩ =
      Except.ok (⟨some iv.xmin, some iv.xmax, some ((iv.xmax - iv.xmin) * 1000)⟩, []) ∧
    (iv.xmin ≤ iv.xmax → 0 ≤ (iv.xmax - iv.xmin) * 1000) := by
  constructor
  · unfold get_vowel_duration_row
    rw [foldlM_append_ex, vowel_fold_no_match speaker utt pre hpre, exbind_ok,
      List.foldlM_cons, vowelTierStep_match3 speaker utt _ ivs iv hlen hiv, exbind_ok,
      vowel_fold_no_match speaker utt post hpost, exbind_ok]
    rfl
  · intro h
    exact mul_nonneg (sub_nonneg.mpr h) (by norm_num)

/-- Witness for C6: interval 2 spanning 0.100 s to 0.239 s yields a duration of 139 ms. -/
theorem c6_vowel_duration_formula_witness :
    get_vowel_duration_row "AH_95" "0018"
      ⟨[⟨"Vowel", TierData.intervalTier
        [⟨0, 1 / 10, ""⟩, ⟨1 / 10, 239 / 1000, "V1"⟩, ⟨239 / 1000, 1, ""⟩]⟩]⟩ =
      Except.ok (⟨some (1 / 10), some (239 / 1000), some 139⟩, []) := by
  have h := (c6_vowel_duration_formula "AH_95" "0018" [] []
    [⟨0, 1 / 10, ""⟩, ⟨1 / 10, 239 / 1000, "V1"⟩, ⟨239 / 1000, 1, ""⟩]
    ⟨1 / 10, 239 / 1000, "V1"⟩ (by simp) (by simp) (by simp) rfl).1
  have h2 : ((239 : ℚ) / 1000 - 1 / 10) * 1000 = 139 := by norm_num
  rw [h2] at h
  simpa using h

theorem wordTierStep_match5 (speaker utt : String) (st : WordVals × Bool × List String)
    (ivs : List TGInterval) (iv2 iv4 : TGInterval) (hlen : ivs.length = 5)
    (hg1 : ivs[1]? = some iv2) (hg3 : ivs[3]? = some iv4)
    (htarg : ¬ (iv4.xmax - iv4.xmin) * 1000 = 0) :
    wordTierStep speaker utt st ⟨"Word", TierData.intervalTier ivs⟩ =
      Except.ok (⟨some ((iv2.xmax - iv2.xmin) * 1000), some ((iv4.xmax - iv4.xmin) * 1000),
        some (((iv2.xmax - iv2.xmin) * 1000) / ((iv4.xmax - iv4.xmin) * 1000))⟩, true,
        st.2.2) := by
  have htarg2 : ¬ iv4.xmax - iv4.xmin = 0 := by
    intro h0
    exact htarg (by rw [h0]; ring)
  simp [wordTierStep, getNumberOfIntervals, getIntervalStart, getIntervalEnd, hlen,
    hg1, hg3, pyDivQ, htarg, htarg2]

theorem wordTierStep_matchBad (speaker utt : String) (st : WordVals × Bool × List String)
    (ivs : List TGInterval) (hlen : ¬ ivs.length = 5) :
    wordTierStep speaker utt st ⟨"Word", TierData.intervalTier ivs⟩ =
      Except.ok (st.1, true, st.2.2 ++ [wordWarnMissing speaker utt]) := by
  simp [wordTierStep, getNumberOfIntervals, hlen]

theorem word_fold_safe (speaker utt : String) (ts : List Tier)
    (h : ∀ t ∈ ts, wordTierSafe t = true) (st : WordVals × Bool × List String) :
    ∃ st2, ts.foldlM (wordTierStep speaker utt) st = Except.ok st2 := by
  induction ts generalizing st with
  | nil => exact ⟨st, rfl⟩
  | cons t ts ih =>
    have hsafe := h t (List.mem_cons_self t ts)
    obtain ⟨tn, td⟩ := t
    have hstep : ∃ st1, wordTierStep speaker utt st ⟨tn, td⟩ = Except.ok st1 := by
      by_cases hn : tn = "Word"
      · subst hn
        cases td with
        | pointTier pts =>
          rw [wordTierSafe] at hsafe
          simp at hsafe
        | intervalTier ivs =>
          by_cases hlen : ivs.length = 5
          · have hg1 : ∃ iv, ivs[1]? = some iv := by
              rw [List.getElem?_eq_getElem (by omega)]
              exact ⟨_, rfl⟩
            have hg3 : ∃ iv, ivs[3]? = some iv := by
              rw [List.getElem?_eq_getElem (by omega)]
              exact ⟨_, rfl⟩
            obtain ⟨iv2, hg1⟩ := hg1
            obtain ⟨iv4, hg3⟩ := hg3
            have htarg : ¬ (iv4.xmax - iv4.xmin) * 1000 = 0 := by
              rw [wordTierSafe] at hsafe
              simp only [if_pos rfl, hlen, if_pos rfl] at hsafe
              rw [List.get?_eq_getElem?, hg3] at hsafe
              simpa using hsafe
            exact ⟨_, wordTierStep_match5 speaker utt st ivs iv2 iv4 hlen hg1 hg3 htarg⟩
          · exact ⟨_, wordTierStep_matchBad speaker utt st ivs hlen⟩
      · exact ⟨st, by simp [wordTierStep, hn]⟩
    obtain ⟨st1, hstep⟩ := hstep
    obtain ⟨st2, h2⟩ := ih (fun x hx => h x (List.mem_cons_of_mem _ hx)) st1
    exact ⟨st2, by rw [List.foldlM_cons, hstep, exbind_ok, h2]⟩

theorem vowelTierStep_vowel_vals (speaker utt : String) (st : VowelVals × Bool × List String)
    (ivs : List TGInterval) :
    ∃ ws2, vowelTierStep speaker utt st ⟨"Vowel", TierData.intervalTier ivs⟩ =
      Except.ok (vowelValsOf ivs, true, ws2) := by
  by_cases hlen : ivs.length = 3
  · obtain ⟨a, b, c, rfl⟩ := List.length_eq_three.mp hlen
    refine ⟨st.2.2, ?_⟩
    rw [vowelTierStep_match3 speaker utt st [a, b, c] b rfl rfl]
    rfl
  · refine ⟨st.2.2 ++ [vowelWarnMissing speaker utt], ?_⟩
    rw [vowelTierStep_matchBad speaker utt st ivs hlen]
    unfold vowelValsOf
    split <;> simp [hlen]

theorem vowel_fold_safe (speaker utt : String) (ts : List Tier)
    (h : ∀ t ∈ ts, vowelTierSafe t = true) (st : VowelVals × Bool × List String) :
    ∃ st2, ts.foldlM (vowelTierStep speaker utt) st = Except.ok st2 := by
  induction ts generalizing st with
  | nil => exact ⟨st, rfl⟩
  | cons t ts ih =>
    have hsafe := h t (List.mem_cons_self t ts)
    obtain ⟨tn, td⟩ := t
    have hstep : ∃ st1, vowelTierStep speaker utt st ⟨tn, td⟩ = Except.ok st1 := by
      by_cases hn : tn = "Vowel"
      · subst hn
        cases td with
        | pointTier pts =>
          rw [vowelTierSafe] at hsafe
          simp at hsafe
        | intervalTier ivs =>
          obtain ⟨ws2, hs⟩ := vowelTierStep_vowel_vals speaker utt st ivs
          exact ⟨_, hs⟩
      · exact ⟨st, by simp [vowelTierStep, hn]⟩
    obtain ⟨st1, hstep⟩ := hstep
    obtain ⟨st2, h2⟩ := ih (fun x hx => h x (List.mem_cons_of_mem _ hx)) st1
    exact ⟨st2, by rw [List.foldlM_cons, hstep, exbind_ok, h2]⟩

/-- C7 counterexample: with two Word tiers, the first well-formed (5 intervals) and the
second malformed (4 intervals), the word-duration stage keeps the first tier's values —
a malformed later match does not overwrite — while the malformed tier alone stores
nothing; so the values do not come from the last matching tier processed. -/
theorem c7_counterexample :
    get_word_durations_row "s" "u" ⟨[tierWord5, tierWord4]⟩ =
      Except.ok (⟨some 1000, some 2000, some (1 / 2)⟩, [wordWarnMissing "s" "u"]) ∧
    get_word_durations_row "s" "u" ⟨[tierWord4]⟩ =
      Except.ok (⟨none, none, none⟩, [wordWarnMissing "s" "u"]) := by
  constructor
  · unfold get_word_durations_row tierWord5 tierWord4
    rw [List.foldlM_cons, wordTierStep_match5 "s" "u" _
      [⟨0, 1, ""⟩, ⟨1, 2, "tool"⟩, ⟨2, 3, ""⟩, ⟨3, 5, "target"⟩, ⟨5, 6, ""⟩]
      ⟨1, 2, "tool"⟩ ⟨3, 5, "target"⟩ rfl rfl rfl (by norm_num)]
    simp only [exbind_ok, List.foldlM_cons]
    rw [wordTierStep_matchBad "s" "u" _ _ (by norm_num)]
    simp only [exbind_ok, List.foldlM_nil, expure_eq_ok]
    norm_num
  · unfold get_word_durations_row tierWord4
    rw [List.foldlM_cons, wordTierStep_matchBad "s" "u" _ _ (by norm_num)]
    simp only [exbind_ok, List.foldlM_nil, expure_eq_ok]
    norm_num

/-- C7 amended: in the vowel-duration stage every name match overwrites, so the stored
values are those determined by the last matching tier (its interval-2 values when it
has 3 intervals, nulls otherwise) regardless of any earlier processable tiers; in the
word-duration stage a match overwrites only when it has exactly 5 intervals, so the
values come from the last 5-interval match (a malformed later match leaves earlier
values standing, per the counterexample). -/
theorem c7_amended :
    (∀ (speaker utt : String) (pre : List Tier) (ivs : List TGInterval),
      (∀ t ∈ pre, vowelTierSafe t = true) →
      ∃ ws, get_vowel_duration_row speaker utt
          ⟨pre ++ [⟨"Vowel", TierData.intervalTier ivs⟩]⟩ =
        Except.ok (vowelValsOf ivs, ws)) ∧
    (∀ (speaker utt : String) (pre : List Tier) (ivs : List TGInterval)
      (iv2 iv4 : TGInterval),
      (∀ t ∈ pre, wordTierSafe t = true) →
      ivs.length = 5 → ivs[1]? = some iv2 → ivs[3]? = some iv4 →
      ¬ (iv4.xmax - iv4.xmin) * 1000 = 0 →
      ∃ ws, get_word_durations_row speaker utt
          ⟨pre ++ [⟨"Word", TierData.intervalTier ivs⟩]⟩ =
        Except.ok (⟨some ((iv2.xmax - iv2.xmin) * 1000), some ((iv4.xmax - iv4.xmin) * 1000),
          some (((iv2.xmax - iv2.xmin) * 1000) / ((iv4.xmax - iv4.xmin) * 1000))⟩, ws)) := by
  constructor
  · intro speaker utt pre ivs hpre
    obtain ⟨st1, h1⟩ := vowel_fold_safe speaker utt pre hpre (⟨none, none, none⟩, false, [])
    obtain ⟨ws2, h2⟩ := vowelTierStep_vowel_vals speaker utt st1 ivs
    refine ⟨ws2, ?_⟩
    unfold get_vowel_duration_row
    rw [foldlM_append_ex, h1, exbind_ok, List.foldlM_cons, h2, exbind_ok]
    rfl
  · intro speaker utt pre ivs iv2 iv4 hpre hlen hg1 hg3 htarg
    obtain ⟨st1, h1⟩ := word_fold_safe speaker utt pre hpre (⟨none, none, none⟩, false, [])
    refine ⟨st1.2.2, ?_⟩
    unfold get_word_durations_row
    rw [foldlM_append_ex, h1, exbind_ok, List.foldlM_cons,
      wordTierStep_match5 speaker utt st1 ivs iv2 iv4 hlen hg1 hg3 htarg, exbind_ok]
    rfl

/-- Witness for the amended C7: a malformed 2-interval Vowel tier appearing after a
well-formed one still determines the final (null) values, and a 5-interval Word tier
appearing after a malformed one determines the word durations. -/
theorem c7_amended_witness :
    (∃ ws, get_vowel_duration_row "s" "u"
        ⟨[⟨"Vowel", TierData.intervalTier [⟨0, 1, ""⟩, ⟨1, 2, ""⟩, ⟨2, 3, ""⟩]⟩,
          ⟨"Vowel", TierData.intervalTier [⟨0, 1, ""⟩, ⟨1, 2, ""⟩]⟩]⟩ =
        Except.ok (vowelValsOf [⟨0, 1, ""⟩, ⟨1, 2, ""⟩], ws)) ∧
    (∃ ws, get_word_durations_row "s" "u"
        ⟨[tierWord4, ⟨"Word", TierData.intervalTier
          [⟨0, 1, ""⟩, ⟨1, 2, "tool"⟩, ⟨2, 3, ""⟩, ⟨3, 5, "target"⟩, ⟨5, 6, ""⟩]⟩]⟩ =
        Except.ok (⟨some (((2 : ℚ) - 1) * 1000), some (((5 : ℚ) - 3) * 1000),
          some ((((2 : ℚ) - 1) * 1000) / (((5 : ℚ) - 3) * 1000))⟩, ws)) := by
  constructor
  · exact c7_amended.1 "s" "u"
      [⟨"Vowel", TierData.intervalTier [⟨0, 1, ""⟩, ⟨1, 2, ""⟩, ⟨2, 3, ""⟩]⟩]
      [⟨0, 1, ""⟩, ⟨1, 2, ""⟩]
      (by intro t ht; simp at ht; subst ht; rfl)
  · exact c7_amended.2 "s" "u" [tierWord4]
      [⟨0, 1, ""⟩, ⟨1, 2, "tool"⟩, ⟨2, 3, ""⟩, ⟨3, 5, "target"⟩, ⟨5, 6, ""⟩]
      ⟨1, 2, "tool"⟩ ⟨3, 5, "target"⟩
      (by intro t ht; simp at ht; subst ht; rfl)
      rfl rfl rfl (by norm_num)

theorem rel_fold_no_match (toPitch : Sound → ℚ → ℚ → Pitch) (pitchAt : Pitch → ℚ → PyFloat)
    (L : ℚ → ℚ) (snd : Sound) (ts : List Tier) (h : ∀ t ∈ ts, ¬ t.name = "f0")
    (st : RelVals × Bool) :
    ts.foldlM (relTierStep toPitch pitchAt L snd) st = Except.ok st := by
  induction ts generalizing st with
  | nil => rfl
  | cons t ts ih =>
    have hn : ¬ t.name = "f0" := h t (List.mem_cons_self t ts)
    have hstep : relTierStep toPitch pitchAt L snd st t = Except.ok st := by
      simp [relTierStep, hn]
    rw [List.foldlM_cons, hstep, exbind_ok]
    exact ih (fun t2 ht2 => h t2 (List.mem_cons_of_mem t ht2)) st

theorem pyListIndex_not_mem (x : String) (l : List String) (h : ∀ y ∈ l, ¬ y = x) :
    pyListIndex x l = Except.error PyErr.valueError := by
  induction l with
  | nil => rfl
  | cons y ys ih =>
    have hy : ¬ y = x := h y (List.mem_cons_self y ys)
    simp [pyListIndex, hy, ih (fun z hz => h z (List.mem_cons_of_mem y hz))]

/-- C4 counterexample: a row whose `f0` tier has 3 points none labelled `H` does not
get null-filled outputs with a warning — the stage raises an uncaught `ValueError`
(from `labels.index`) and aborts.  Concrete input: points labelled `L`, `T`, `L%`,
pitch undefined (NaN) at every time, which the excursion arithmetic itself tolerates. -/
theorem c4_counterexample :
    get_relative_heights_row (fun _ _ _ => ⟨0⟩) (fun _ _ => none) (fun _ => 0) "s" "u"
      ⟨[⟨"f0", TierData.pointTier [⟨1, "L"⟩, ⟨2, "T"⟩, ⟨3, "L%"⟩]⟩]⟩ ⟨0⟩ =
      Except.error PyErr.valueError := rfl

/-- C4 amended: for every row whose `f0` tier (first tier of that name) has exactly 3
points, none labelled `H`, and whose pitch track yields positive values at the three
point times (so the preceding excursion arithmetic succeeds), the stage raises an
uncaught `ValueError` — no null-fill, no warning, and the error aborts the batch. -/
theorem c4_amended (toPitch : Sound → ℚ → ℚ → Pitch) (pitchAt : Pitch → ℚ → PyFloat)
    (L : ℚ → ℚ) (speaker utt : String) (snd : Sound) (pre post : List Tier)
    (pts : List TGPoint)
    (hpre : ∀ t ∈ pre, ¬ t.name = "f0")
    (hlen : pts.length = 3)
    (hnoH : ∀ p ∈ pts, ¬ p.mark = "H")
    (hpos : ∀ p ∈ pts, ∃ v, pitchAt (toPitch snd 50 500) p.time = some v ∧ 0 < v) :
    get_relative_heights_row toPitch pitchAt L speaker utt
      ⟨pre ++ ⟨"f0", TierData.pointTier pts⟩ :: post⟩ snd =
      Except.error PyErr.valueError := by
  obtain ⟨p0, p1, p2, rfl⟩ := List.length_eq_three.mp hlen
  obtain ⟨v1, hv1, hv1p⟩ := hpos p1 (by simp)
  obtain ⟨v2, hv2, hv2p⟩ := hpos p2 (by simp)
  have hdiv : ¬ v2 = 0 := ne_of_gt hv2p
  have hq : ¬ v1 / v2 ≤ 0 := not_le.mpr (div_pos hv1p hv2p)
  have hidx : pyListIndex "H" [p0.mark, p1.mark, p2.mark] = Except.error PyErr.valueError := by
    apply pyListIndex_not_mem
    intro y hy
    rcases List.mem_cons.mp hy with h | hy
    · exact h ▸ hnoH p0 (by simp)
    rcases List.mem_cons.mp hy with h | hy
    · exact h ▸ hnoH p1 (by simp)
    rcases List.mem_cons.mp hy with h | hy
    · exact h ▸ hnoH p2 (by simp)
    · simp at hy
  have hstep : relTierStep toPitch pitchAt L snd (⟨none, none, none⟩, false)
      ⟨"f0", TierData.pointTier [p0, p1, p2]⟩ = Except.error PyErr.valueError := by
    have e1 : relTierStep toPitch pitchAt L snd (⟨none, none, none⟩, false)
        ⟨"f0", TierData.pointTier [p0, p1, p2]⟩ =
        (do
          let q1 ← pyFDiv (pitchAt (toPitch snd 50 500) p1.time)
            (pitchAt (toPitch snd 50 500) p2.time)
          let lg1 ← pyLog2 L q1
          let peak ← pyListIndex "H" [p0.mark, p1.mark, p2.mark]
          let f0p ← pyIdx [pitchAt (toPitch snd 50 500) p0.time,
            pitchAt (toPitch snd 50 500) p1.time, pitchAt (toPitch snd 50 500) p2.time] peak
          let q2 ← pyFDiv f0p (pitchAt (toPitch snd 50 500) p2.time)
          let lg2 ← pyLog2 L q2
          pure ((⟨pyMulC 12 lg1, pyMulC 12 lg2, some (toPitch snd 50 500)⟩ : RelVals),
            true)) := rfl
    rw [e1, hv1, hv2]
    simp [pyFDiv, hdiv, pyLog2, hq, hidx]
  unfold get_relative_heights_row
  rw [foldlM_append_ex,
    rel_fold_no_match toPitch pitchAt L snd pre hpre (⟨none, none, none⟩, false),
    exbind_ok, List.foldlM_cons, hstep]
  rfl

/-- Witness for the amended C4: a 3-point tier labelled `L`, `T2`, `L%` with a constant
positive pitch track makes the stage raise `ValueError`. -/
theorem c4_amended_witness :
    get_relative_heights_row (fun _ _ _ => ⟨0⟩) (fun _ _ => some 150) (fun _ => 0) "s" "u"
      ⟨[⟨"f0", TierData.pointTier [⟨1, "L"⟩, ⟨2, "T2"⟩, ⟨3, "L%"⟩]⟩]⟩ ⟨0⟩ =
      Except.error PyErr.valueError :=
  c4_amended (fun _ _ _ => ⟨0⟩) (fun _ _ => some 150) (fun _ => 0) "s" "u" ⟨0⟩ [] []
    [⟨1, "L"⟩, ⟨2, "T2"⟩, ⟨3, "L%"⟩] (by simp) rfl (by decide)
    (by intro p hp; exact ⟨150, rfl, by norm_num⟩)

theorem cols_eq_triples (utts : List (Option ℚ × Option ℚ × Option ℚ))
    (H : ∀ u ∈ utts, (tripleOf u).isSome = true ∨
      (u.1 = none ∧ u.2.1 = none ∧ u.2.2 = none)) :
    utts.filterMap (fun u => u.1) = (utts.filterMap tripleOf).map (fun t => t.1) ∧
    utts.filterMap (fun u => u.2.1) = (utts.filterMap tripleOf).map (fun t => t.2.1) ∧
    utts.filterMap (fun u => u.2.2) = (utts.filterMap tripleOf).map (fun t => t.2.2) := by
  induction utts with
  | nil => simp
  | cons u us ih =>
    obtain ⟨h1, h2, h3⟩ := ih (fun x hx => H x (List.mem_cons_of_mem u hx))
    obtain ⟨f1, f2, f3⟩ := u
    rcases H (f1, f2, f3) (List.mem_cons_self _ us) with hfull | ⟨e1, e2, e3⟩
    · rcases f1 with _ | a
      · simp [tripleOf] at hfull
      rcases f2 with _ | b
      · simp [tripleOf] at hfull
      rcases f3 with _ | c
      · simp [tripleOf] at hfull
      refine ⟨?_, ?_, ?_⟩ <;> simp [List.filterMap_cons, tripleOf, h1, h2, h3]
    · simp only at e1 e2 e3
      subst e1
      subst e2
      subst e3
      refine ⟨?_, ?_, ?_⟩ <;> simp [List.filterMap_cons, tripleOf, h1, h2, h3]

theorem pairDiffs_maps (l : List (ℚ × ℚ × ℚ)) (f g : ℚ × ℚ × ℚ → ℚ) :
    pairDiffs (l.map f) (l.map g) l.length =
      Except.ok (l.map (fun t => f t - g t)) := by
  induction l with
  | nil => rfl
  | cons t l ih => simp [pairDiffs, ih]

theorem pairDiffs_err (ys xs : List ℚ) (n : Nat) (h : xs.length < n ∨ ys.length < n) :
    pairDiffs ys xs n = Except.error PyErr.indexError := by
  induction n generalizing ys xs with
  | zero => omega
  | succ n ih =>
    cases ys with
    | nil => rfl
    | cons y ys =>
      cases xs with
      | nil => rfl
      | cons x xs =>
        have h2 : xs.length < n ∨ ys.length < n := by
          simp only [List.length_cons] at h
          omega
        simp [pairDiffs, ih ys xs h2]

theorem dispSpeaker_ok (utts : List (Option ℚ × Option ℚ × Option ℚ))
    (H : ∀ u ∈ utts, (tripleOf u).isSome = true ∨
      (u.1 = none ∧ u.2.1 = none ∧ u.2.2 = none))
    (H2 : 2 ≤ (utts.filterMap tripleOf).length) :
    ∃ ws, dispSpeaker utts = Except.ok
      ((((utts.filterMap tripleOf).map (fun t => t.2.1 - t.1)).sum /
        (((utts.filterMap tripleOf).length : ℚ) - 1)),
       (((utts.filterMap tripleOf).map (fun t => t.2.2 - t.2.1)).sum /
        (((utts.filterMap tripleOf).length : ℚ) - 1)), ws) := by
  obtain ⟨h1, h2, h3⟩ := cols_eq_triples utts H
  have hne : ¬ ((((utts.filterMap tripleOf).length : ℤ) - 1) = 0) := by omega
  have hcast : (((((utts.filterMap tripleOf).length : ℤ) - 1) : ℤ) : ℚ) =
      (((utts.filterMap tripleOf).length : ℚ) - 1) := by push_cast; ring
  unfold dispSpeaker
  rw [h1, h2, h3]
  simp only [List.length_map, max_self, and_self, if_true, eq_self_iff_true]
  rw [pairDiffs_maps, exbind_ok]
  simp only [pyDivZ, if_neg hne]
  rw [exbind_ok, pairDiffs_maps, exbind_ok, exbind_ok]
  simp only [hcast]
  exact ⟨_, rfl⟩

theorem map_core_filter (cur : List FRow) : ∀ (rows : List FRow),
    cur.map frowCore = rows.map frowCore → ∀ (s : String),
    (cur.filter (fun r => r.speaker = s)).map (fun r => (r.f1, r.f2, r.f3)) =
    (rows.filter (fun r => r.speaker = s)).map (fun r => (r.f1, r.f2, r.f3)) := by
  induction cur with
  | nil =>
    intro rows h s
    cases rows with
    | nil => rfl
    | cons r rs => simp at h
  | cons c cs ih =>
    intro rows h s
    cases rows with
    | nil => simp at h
    | cons r rs =>
      simp only [List.map_cons, List.cons.injEq] at h
      obtain ⟨hcr, htail⟩ := h
      simp only [frowCore, Prod.mk.injEq] at hcr
      obtain ⟨hsp, hf1, hf2, hf3⟩ := hcr
      by_cases hs : c.speaker = s
      · have hs2 : r.speaker = s := by rw [← hsp]; exact hs
        simp [List.filter_cons, hs, hs2, hf1, hf2, hf3, ih rs htail s]
      · have hs2 : ¬ r.speaker = s := by rw [← hsp]; exact hs
        simp [List.filter_cons, hs, hs2, ih rs htail s]

theorem broadcast_core (rows : List FRow) (s : String) (d12 d23 : ℚ) :
    (broadcastSpeaker rows s d12 d23).map frowCore = rows.map frowCore := by
  unfold broadcastSpeaker
  rw [List.map_map]
  have hcomp : (frowCore ∘ fun r =>
      if r.speaker = s then
        { r with f1_f2_dispersion := some d12, f2_f3_dispersion := some d23 }
      else r) = frowCore := by
    funext r
    by_cases h : r.speaker = s <;> simp [frowCore, h]
  rw [hcomp]

theorem updSpec_broadcast_comp (rows : List FRow) (s : String) (ss : List String) (r : FRow) :
    updSpec rows ss (if r.speaker = s
      then { r with f1_f2_dispersion := some (specD12 rows s)
                    f2_f3_dispersion := some (specD23 rows s) }
      else r) = updSpec rows (s :: ss) r := by
  by_cases h : r.speaker = s
  · rw [if_pos h]
    unfold updSpec
    by_cases h2 : r.speaker ∈ ss
    · rw [if_pos (by simpa using h2), if_pos (List.mem_cons_of_mem s h2)]
    · rw [if_neg (by simpa using h2), if_pos (by simp [h])]
      rw [h]
  · rw [if_neg h]
    unfold updSpec
    by_cases h2 : r.speaker ∈ ss
    · rw [if_pos h2, if_pos (List.mem_cons_of_mem s h2)]
    · rw [if_neg h2, if_neg (by simp [h, h2])]

theorem mem_uniqueFirst_aux (l : List String) : ∀ (acc : List String) (x : String),
    x ∈ l.foldl (fun acc s => if s ∈ acc then acc else acc ++ [s]) acc ↔
      x ∈ acc ∨ x ∈ l := by
  induction l with
  | nil =>
    intro acc x
    simp
  | cons s l ih =>
    intro acc x
    rw [List.foldl_cons]
    by_cases h : s ∈ acc
    · rw [if_pos h, ih]
      simp only [List.mem_cons]
      constructor
      · rintro (hx | hx)
        · exact Or.inl hx
        · exact Or.inr (Or.inr hx)
      · rintro (hx | hx | hx)
        · exact Or.inl hx
        · exact Or.inl (hx ▸ h)
        · exact Or.inr hx
    · rw [if_neg h, ih]
      simp only [List.mem_append, List.mem_singleton, List.mem_cons]
      tauto

theorem mem_uniqueFirst (l : List String) (x : String) : x ∈ uniqueFirst l ↔ x ∈ l := by
  unfold uniqueFirst
  rw [mem_uniqueFirst_aux]
  simp

theorem uniqueFirst_const (s0 : String) (l : List String) (hne : ¬ l = [])
    (hall : ∀ x ∈ l, x = s0) : uniqueFirst l = [s0] := by
  have aux : ∀ (m : List String), (∀ x ∈ m, x = s0) →
      m.foldl (fun acc s => if s ∈ acc then acc else acc ++ [s]) [s0] = [s0] := by
    intro m
    induction m with
    | nil => intro _; rfl
    | cons x xs ih =>
      intro hm
      have hx : x = s0 := hm x (List.mem_cons_self x xs)
      rw [List.foldl_cons, hx, if_pos (List.mem_singleton.mpr rfl)]
      exact ih (fun y hy => hm y (List.mem_cons_of_mem x hy))
  cases l with
  | nil => exact absurd rfl hne
  | cons x xs =>
    have hx : x = s0 := hall x (List.mem_cons_self x xs)
    unfold uniqueFirst
    rw [List.foldl_cons, hx, if_neg (List.not_mem_nil s0), List.nil_append]
    exact aux xs (fun y hy => hall y (List.mem_cons_of_mem x hy))

theorem disp_fold (rows : List FRow)
    (H1 : ∀ r ∈ rows, (tripleOf (r.f1, r.f2, r.f3)).isSome = true ∨
      (r.f1 = none ∧ r.f2 = none ∧ r.f3 = none)) :
    ∀ (ss : List String) (cur : List FRow) (ws : List String),
      cur.map frowCore = rows.map frowCore →
      (∀ s ∈ ss, 2 ≤ (fullTriples rows s).length) →
      ∃ ws2, ss.foldlM dispStep (cur, ws) =
        Except.ok (cur.map (updSpec rows ss), ws ++ ws2) := by
  intro ss
  induction ss with
  | nil =>
    intro cur ws _ _
    refine ⟨[], ?_⟩
    have hid : List.map (updSpec rows []) cur = cur := by
      have h0 : updSpec rows [] = fun r => r := by
        funext r
        simp [updSpec]
      rw [h0, List.map_id']
    simp only [List.foldlM_nil, hid, List.append_nil, expure_eq_ok]
  | cons s ss ih =>
    intro cur ws hcore h2
    have hutts : (cur.filter (fun r => r.speaker = s)).map (fun r => (r.f1, r.f2, r.f3)) =
        (rows.filter (fun r => r.speaker = s)).map (fun r => (r.f1, r.f2, r.f3)) :=
      map_core_filter cur rows hcore s
    have htrip : ((rows.filter (fun r => r.speaker = s)).map
        (fun r => (r.f1, r.f2, r.f3))).filterMap tripleOf = fullTriples rows s := by
      rw [List.filterMap_map]
      rfl
    have hH : ∀ u ∈ (rows.filter (fun r => r.speaker = s)).map
        (fun r => (r.f1, r.f2, r.f3)),
        (tripleOf u).isSome = true ∨ (u.1 = none ∧ u.2.1 = none ∧ u.2.2 = none) := by
      intro u hu
      obtain ⟨r, hr, rfl⟩ := List.mem_map.mp hu
      exact H1 r (List.mem_of_mem_filter hr)
    have hlen2 : 2 ≤ (((rows.filter (fun r => r.speaker = s)).map
        (fun r => (r.f1, r.f2, r.f3))).filterMap tripleOf).length := by
      rw [htrip]
      exact h2 s (List.mem_cons_self s ss)
    obtain ⟨wsS, hdisp⟩ := dispSpeaker_ok _ hH hlen2
    rw [htrip] at hdisp
    have hstep : dispStep (cur, ws) s = Except.ok
        (broadcastSpeaker cur s (specD12 rows s) (specD23 rows s), ws ++ wsS) := by
      unfold dispStep
      rw [hutts]
      simp only [hdisp, exbind_ok]
      rfl
    obtain ⟨ws2, hrest⟩ := ih (broadcastSpeaker cur s (specD12 rows s) (specD23 rows s))
      (ws ++ wsS) (by rw [broadcast_core]; exact hcore)
      (fun t ht => h2 t (List.mem_cons_of_mem s ht))
    refine ⟨wsS ++ ws2, ?_⟩
    have hmap : (broadcastSpeaker cur s (specD12 rows s) (specD23 rows s)).map
        (updSpec rows ss) = cur.map (updSpec rows (s :: ss)) := by
      unfold broadcastSpeaker
      rw [List.map_map]
      congr 1
      funext r
      exact updSpec_broadcast_comp rows s ss r
    rw [List.foldlM_cons, hstep, exbind_ok, hrest, hmap, List.append_assoc]

/-- C1: when every row of the table carries either a full formant triple or none at
all, and every speaker has at least two triples (the domain C10 carves out), the
dispersion stage succeeds and broadcasts onto each row of each speaker the values
`sum(f2_i - f1_i) / (n - 1)` and `sum(f3_i - f2_i) / (n - 1)`, the sums ranging over
the speaker's paired non-null triples and `n` being their count — divisor `n - 1`. -/
theorem c1_dispersion_formula (rows : List FRow)
    (H1 : ∀ r ∈ rows, (tripleOf (r.f1, r.f2, r.f3)).isSome = true ∨
      (r.f1 = none ∧ r.f2 = none ∧ r.f3 = none))
    (H2 : ∀ s, (∃ r ∈ rows, r.speaker = s) → 2 ≤ (fullTriples rows s).length) :
    ∃ ws, get_formant_dispersions rows = Except.ok
      (rows.map (fun r => { r with f1_f2_dispersion := some (specD12 rows r.speaker)
                                   f2_f3_dispersion := some (specD23 rows r.speaker) }),
        ws) := by
  have h2 : ∀ s ∈ uniqueFirst (rows.map (fun r => r.speaker)),
      2 ≤ (fullTriples rows s).length := by
    intro s hs
    apply H2
    obtain ⟨r, hr, hrs⟩ := List.mem_map.mp ((mem_uniqueFirst _ s).mp hs)
    exact ⟨r, hr, hrs⟩
  obtain ⟨ws2, hfold⟩ := disp_fold rows H1
    (uniqueFirst (rows.map (fun r => r.speaker))) rows [] rfl h2
  refine ⟨ws2, ?_⟩
  unfold get_formant_dispersions
  rw [hfold]
  have hmap : rows.map (updSpec rows (uniqueFirst (rows.map (fun r => r.speaker)))) =
      rows.map (fun r => { r with f1_f2_dispersion := some (specD12 rows r.speaker)
                                  f2_f3_dispersion := some (specD23 rows r.speaker) }) := by
    apply List.map_congr_left
    intro r hr
    unfold updSpec
    rw [if_pos ((mem_uniqueFirst _ _).mpr (List.mem_map.mpr ⟨r, hr, rfl⟩))]
  rw [hmap, List.nil_append]

/-- Witness for C1: one speaker with triples (1,2,3) and (2,4,6). -/
theorem c1_dispersion_formula_witness :
    ∃ ws, get_formant_dispersions
      [⟨"A", some 1, some 2, some 3, none, none⟩,
       ⟨"A", some 2, some 4, some 6, none, none⟩] = Except.ok
      (([⟨"A", some 1, some 2, some 3, none, none⟩,
         ⟨"A", some 2, some 4, some 6, none, none⟩] : List FRow).map
        (fun r => { r with
          f1_f2_dispersion := some (specD12
            [⟨"A", some 1, some 2, some 3, none, none⟩,
             ⟨"A", some 2, some 4, some 6, none, none⟩] r.speaker)
          f2_f3_dispersion := some (specD23
            [⟨"A", some 1, some 2, some 3, none, none⟩,
             ⟨"A", some 2, some 4, some 6, none, none⟩] r.speaker) }), ws) := by
  apply c1_dispersion_formula
  · decide
  · rintro s ⟨r, hr, rfl⟩
    rcases List.mem_cons.mp hr with rfl | hr
    · decide
    rcases List.mem_cons.mp hr with rfl | hr
    · decide
    · simp at hr

/-- C10: the dispersion computation is not total.  For a single-speaker table whose
rows yield exactly one non-null formant triple (all other rows bare), the divisor
`formant_count - 1` is zero and the stage raises `ZeroDivisionError`; and when the
per-column non-null counts differ (fewer f1 than f2 values), indexing the shorter list
up to the maximal count raises `IndexError`.  In both cases `get_formant_dispersions`
returns the error — the stage aborts instead of null-filling and warning. -/
theorem c10_dispersion_not_total :
    (∀ (s0 : String) (rows : List FRow),
      (∀ r ∈ rows, r.speaker = s0) →
      (∀ r ∈ rows, (tripleOf (r.f1, r.f2, r.f3)).isSome = true ∨
        (r.f1 = none ∧ r.f2 = none ∧ r.f3 = none)) →
      (fullTriples rows s0).length = 1 →
      get_formant_dispersions rows = Except.error PyErr.zeroDivision) ∧
    (∀ (s0 : String) (rows : List FRow),
      (∀ r ∈ rows, r.speaker = s0) →
      (rows.filterMap (fun r => r.f1)).length < (rows.filterMap (fun r => r.f2)).length →
      get_formant_dispersions rows = Except.error PyErr.indexError) := by
  constructor
  · intro s0 rows hall H1 hlen1
    have hne : ¬ rows = [] := by
      rintro rfl
      simp [fullTriples] at hlen1
    have hfilter : rows.filter (fun r => r.speaker = s0) = rows :=
      List.filter_eq_self.mpr (fun r hr => by simp [hall r hr])
    have huniq : uniqueFirst (rows.map (fun r => r.speaker)) = [s0] :=
      uniqueFirst_const s0 _ (by simpa using hne)
        (by intro x hx; obtain ⟨r, hr, hrx⟩ := List.mem_map.mp hx; exact hrx ▸ hall r hr)
    have htrip : (rows.map (fun r => (r.f1, r.f2, r.f3))).filterMap tripleOf =
        fullTriples rows s0 := by
      rw [List.filterMap_map]
      unfold fullTriples
      rw [hfilter]
      rfl
    have hH : ∀ u ∈ rows.map (fun r => (r.f1, r.f2, r.f3)),
        (tripleOf u).isSome = true ∨ (u.1 = none ∧ u.2.1 = none ∧ u.2.2 = none) := by
      intro u hu
      obtain ⟨r, hr, hru⟩ := List.mem_map.mp hu
      exact hru ▸ H1 r hr
    obtain ⟨hc1, hc2, hc3⟩ := cols_eq_triples _ hH
    rw [← htrip] at hlen1
    obtain ⟨t, ht⟩ := List.length_eq_one.mp hlen1
    have hdisp : dispSpeaker (rows.map (fun r => (r.f1, r.f2, r.f3))) =
        Except.error PyErr.zeroDivision := by
      unfold dispSpeaker
      rw [hc1, hc2, hc3]
      simp only [List.length_map, max_self]
      rw [pairDiffs_maps, exbind_ok, ht]
      simp [pyDivZ]
    unfold get_formant_dispersions
    rw [huniq, List.foldlM_cons]
    have hstep : dispStep (rows, []) s0 = Except.error PyErr.zeroDivision := by
      unfold dispStep
      rw [hfilter]
      simp only [hdisp, exbind_err]
    rw [hstep]
    rfl
  · intro s0 rows hall hlt
    have hne : ¬ rows = [] := by
      rintro rfl
      simp at hlt
    have hfilter : rows.filter (fun r => r.speaker = s0) = rows :=
      List.filter_eq_self.mpr (fun r hr => by simp [hall r hr])
    have huniq : uniqueFirst (rows.map (fun r => r.speaker)) = [s0] :=
      uniqueFirst_const s0 _ (by simpa using hne)
        (by intro x hx; obtain ⟨r, hr, hrx⟩ := List.mem_map.mp hx; exact hrx ▸ hall r hr)
    have hc1 : (rows.map (fun r => (r.f1, r.f2, r.f3))).filterMap (fun u => u.1) =
        rows.filterMap (fun r => r.f1) := by
      rw [List.filterMap_map]
      rfl
    have hc2 : (rows.map (fun r => (r.f1, r.f2, r.f3))).filterMap (fun u => u.2.1) =
        rows.filterMap (fun r => r.f2) := by
      rw [List.filterMap_map]
      rfl
    have hc3 : (rows.map (fun r => (r.f1, r.f2, r.f3))).filterMap (fun u => u.2.2) =
        rows.filterMap (fun r => r.f3) := by
      rw [List.filterMap_map]
      rfl
    have hlt2 : (rows.filterMap (fun r => r.f1)).length <
        max (rows.filterMap (fun r => r.f1)).length
          (max (rows.filterMap (fun r => r.f2)).length
            (rows.filterMap (fun r => r.f3)).length) :=
      lt_of_lt_of_le hlt (le_trans (le_max_left _ _) (le_max_right _ _))
    have hdisp : dispSpeaker (rows.map (fun r => (r.f1, r.f2, r.f3))) =
        Except.error PyErr.indexError := by
      unfold dispSpeaker
      rw [hc1, hc2, hc3]
      simp only [pairDiffs_err _ _ _ (Or.inl hlt2), exbind_err]
    unfold get_formant_dispersions
    rw [huniq, List.foldlM_cons]
    have hstep : dispStep (rows, []) s0 = Except.error PyErr.indexError := by
      unfold dispStep
      rw [hfilter]
      simp only [hdisp, exbind_err]
    rw [hstep]
    rfl

/-- Witness for C10: concrete single-speaker tables hitting the zero divisor and the
index overrun. -/
theorem c10_dispersion_not_total_witness :
    get_formant_dispersions [⟨"A", some 1, some 2, some 3, none, none⟩] =
      Except.error PyErr.zeroDivision ∧
    get_formant_dispersions [⟨"A", some 1, some 2, some 3, none, none⟩,
      ⟨"A", none, some 4, some 5, none, none⟩] = Except.error PyErr.indexError := by
  constructor
  · exact c10_dispersion_not_total.1 "A" [⟨"A", some 1, some 2, some 3, none, none⟩]
      (by decide) (by decide) (by decide)
  · exact c10_dispersion_not_total.2 "A"
      [⟨"A", some 1, some 2, some 3, none, none⟩, ⟨"A", none, some 4, some 5, none, none⟩]
      (by decide) (by decide)
